import Mathlib

/-
Verification of the EDM exporter (io_EDM/writer.py) against its
natural-language specification.

The embedding below translates writer.py into Lean.  Numeric values that are
Python floats in the source are modelled exactly as rationals (ℚ); Python
lists become Lean lists; fallible code (IndexError on empty material-slot
lists, AttributeError on a missing active UV layer, AssertionError on the
diffuse-texture count, NameError on an unclassifiable texture slot) is
modelled with Except.  Host (Blender) objects are modelled as immutable
snapshot structures exposing exactly the fields the source reads.  The
functions vector_to_edm and the host matrices live outside the given source
tree, so they appear as explicit function parameters / fields.
-/

namespace IoEDM

/-- A 3-component vector of exact rationals (models mathutils.Vector). -/
structure Vec3 where
  x : ℚ
  y : ℚ
  z : ℚ
deriving DecidableEq, Inhabited

/-- The component list of a `Vec3`, in x, y, z order. -/
def Vec3.toList (v : Vec3) : List ℚ := [v.x, v.y, v.z]

/-- Errors the exporter can raise, mirroring the Python exceptions. -/
inductive ExportError where
  /-- IndexError: `obj.material_slots[0]` on an object with no slots. -/
  | indexError
  /-- AttributeError: `mesh.tessface_uv_textures.active.data` when no active
  UV layer exists. -/
  | missingUV
  /-- AssertionError: `assert len(diffuseTex) == 1` in create_material. -/
  | assertionError
  /-- NameError: `index` unbound in create_texture when no use_map flag is
  set. -/
  | nameError
deriving DecidableEq, Inhabited

/-- Python-style list-comprehension / loop over a fallible body: evaluates
left to right and propagates the first raised error. -/
def mapE {α β : Type} (f : α → Except ExportError β) : List α → Except ExportError (List β)
  | [] => .ok []
  | a :: l =>
    match f a with
    | .error e => .error e
    | .ok b =>
      match mapE f l with
      | .error e => .error e
      | .ok bs => .ok (b :: bs)

/-- A texture slot of a source material (`material.texture_slots` entry),
with the fields the source reads: the three use_map flags and the slot's
image filepath (`slot.texture.image.filepath`). -/
structure TextureSlot where
  use_map_color_diffuse : Bool
  use_map_normal : Bool
  use_map_specular : Bool
  filepath : String
deriving DecidableEq, Inhabited

/-- The `raytrace_mirror` sub-descriptor of a source material. -/
structure Mirror where
  use : Bool
  reflect_factor : ℚ
  gloss_factor : ℚ
deriving DecidableEq, Inhabited

/-- A source (Blender) material: exactly the fields create_material reads.
`texture_slots` entries can be None in the host, hence `Option`. -/
structure BMaterial where
  name : String
  edm_blending : ℤ
  edm_material : String
  specular_hardness : ℚ
  specular_intensity : ℚ
  diffuse_intensity : ℚ
  raytrace_mirror : Mirror
  use_shadows : Bool
  use_cast_shadows : Bool
  use_cast_shadows_only : Bool
  texture_slots : List (Option TextureSlot)
deriving DecidableEq, Inhabited

/-- A geometric vertex of a tessellated mesh: coordinates and normal. -/
structure MeshVertex where
  co : Vec3
  normal : Vec3
deriving DecidableEq, Inhabited

/-- A tessellated face: the list of vertex indices (`face.vertices`). -/
structure Face where
  vertices : List ℕ
deriving DecidableEq, Inhabited

/-- The UV data of one face in the active UV layer (`uvFace.uv`, one
2-component entry per face vertex). -/
structure UVFace where
  uv : List (ℚ × ℚ)
deriving DecidableEq, Inhabited

/-- The tessellated mesh produced by `source.to_mesh(...)`: vertices, faces
and the active per-face UV layer (`tessface_uv_textures.active`), which may
be absent. -/
structure BMesh where
  vertices : List MeshVertex
  tessfaces : List Face
  uv : Option (List UVFace)
deriving DecidableEq, Inhabited

/-- A scene object snapshot.  `otype` is `obj.type`; `material_slots` is the
list of bound materials (one per slot); `parent` is the (possibly absent)
parent object reference, recorded by name; `matrix_local` / `matrix_world`
are the host transforms as functions on points; `bound_box` is the list of
local bounding-box corner points; `mesh` is the tessellated mesh snapshot
that `to_mesh` yields for this object. -/
structure BObject where
  name : String
  otype : String
  material_slots : List BMaterial
  parent : Option String
  matrix_local : Vec3 → Vec3
  matrix_world : Vec3 → Vec3
  bound_box : List Vec3
  mesh : BMesh

/-- A scene snapshot: the host's `bpy.context.scene.objects`. -/
structure Scene where
  objects : List BObject

/-- An EDM texture: channel index and extension-stripped base name.  The
transform matrix is always the identity in the source and is omitted. -/
structure Texture where
  index : ℤ
  name : String
deriving DecidableEq, Inhabited

/-- An EDM material as populated by create_material.  `uniforms` is the
insertion-ordered uniform dictionary; `index` is assigned later by
write_file. -/
structure Material where
  blending : ℤ
  material_name : String
  name : String
  uniforms : List (String × ℚ)
  shadows_recieve : Bool
  shadows_cast : Bool
  shadows_cast_only : Bool
  vertex_format : List (String × ℕ)
  texture_coordinates_channels : List ℤ
  textures : List Texture
  index : ℕ
deriving DecidableEq, Inhabited

/-- An entry of the node table built by write_file: the implicit root
`Node()`, or an appended entry standing for a render node's parent object. -/
inductive NodeEntry where
  | root
  | parentRef (p : String)
deriving DecidableEq, Inhabited

/-- A flattened vertex: the 9 interleaved components
(position x,y,z, literal 0, normal x,y,z, u, -v). -/
abbrev Vertex := List ℚ

/-- A render node as produced by create_rendernode, before write_file
resolves its material and parent references to integers.  The material is
recorded by source-material name (write_file resolves it through the
name-keyed material map); the parent is the source object's parent
reference. -/
structure RenderNode where
  name : String
  materialName : String
  parent : Option String
  vertexData : List Vertex
  indexData : List ℕ
deriving DecidableEq, Inhabited

/-- A render node after write_file's resolution loop: parent and material
replaced by their integer indices. -/
structure ResolvedRN where
  name : String
  parentIdx : ℕ
  materialIdx : ℕ
  vertexData : List Vertex
  indexData : List ℕ
deriving DecidableEq, Inhabited

/-- The assembled export: root-node payload (material table and bounding
box) plus the node table and render-node table handed to the binary
writer. -/
structure ExportOutput where
  materials : List Material
  nodes : List NodeEntry
  renderNodes : List ResolvedRN
  bboxmin : Vec3
  bboxmax : Vec3

/-- Python `os.path.basename`: the characters after the last slash (the
running collection restarts at every slash). -/
def pyBasenameChars (cs : List Char) : List Char :=
  cs.foldl (fun acc c => if c = '/' then [] else acc ++ [c]) []

/-- Python `str.find`: index of the first occurrence, or -1. -/
def pyFind (s : String) (c : Char) : ℤ :=
  match s.toList.findIdx? (fun d => d = c) with
  | some n => (n : ℤ)
  | none => -1

/-- Python slice `s[:k]` for an integer bound `k` (negative counts from the
end, clamping at 0). -/
def pySliceTo (s : String) (k : ℤ) : String :=
  if 0 ≤ k then String.mk (s.toList.take k.toNat)
  else String.mk (s.toList.take (s.toList.length - (-k).toNat))

/-- `os.path.basename` on strings. -/
def pyBasename (s : String) : String := String.mk (pyBasenameChars s.toList)

/-- The texture-name computation of create_texture:
`texName = os.path.basename(filepath); texName = texName[:texName.find(".")]`. -/
def textureBaseName (filepath : String) : String :=
  let texName := pyBasename filepath
  pySliceTo texName (pyFind texName '.')

/-- create_texture: strip the image filepath to a base name and classify the
slot's channel by its use_map flags (diffuse=0, normal=1, specular=2; no
flag set leaves Python's `index` unbound, a NameError). -/
def create_texture (source : TextureSlot) : Except ExportError Texture :=
  let texName := textureBaseName source.filepath
  if source.use_map_color_diffuse then .ok { index := 0, name := texName }
  else if source.use_map_normal then .ok { index := 1, name := texName }
  else if source.use_map_specular then .ok { index := 2, name := texName }
  else .error .nameError

/-- `[x for x in source.texture_slots if x is not None and
x.use_map_color_diffuse]`. -/
def diffuseSlots (source : BMaterial) : List TextureSlot :=
  (source.texture_slots.filterMap id).filter (fun x => x.use_map_color_diffuse)

/-- The uniform dictionary of create_material, in insertion order.  The
mirror branch overwrites reflectionValue in place and appends
reflectionBlurring, matching Python dict-update semantics. -/
def uniformsOf (source : BMaterial) : List (String × ℚ) :=
  if source.raytrace_mirror.use then
    [("specPower", source.specular_hardness),
     ("specFactor", source.specular_intensity),
     ("diffuseValue", source.diffuse_intensity),
     ("reflectionValue", source.raytrace_mirror.reflect_factor),
     ("reflectionBlurring", 1 - source.raytrace_mirror.gloss_factor)]
  else
    [("specPower", source.specular_hardness),
     ("specFactor", source.specular_intensity),
     ("diffuseValue", source.diffuse_intensity),
     ("reflectionValue", 0)]

/-- The material record create_material populates (everything except the
texture list, which depends on the diffuse-slot check). -/
def materialRecord (source : BMaterial) (t : Texture) : Material :=
  { blending := source.edm_blending
    material_name := source.edm_material
    name := source.name
    uniforms := uniformsOf source
    shadows_recieve := source.use_shadows
    shadows_cast := source.use_cast_shadows
    shadows_cast_only := source.use_cast_shadows_only
    vertex_format := [("position", 4), ("normal", 3), ("tex0", 2)]
    texture_coordinates_channels := (0 : ℤ) :: List.replicate 11 (-1)
    textures := [t]
    index := 0 }

/-- create_material: builds the material record; `assert len(diffuseTex) == 1`
fails unless exactly one non-None slot has the diffuse flag, and the single
qualifying slot is converted with create_texture. -/
def create_material (source : BMaterial) : Except ExportError Material :=
  match diffuseSlots source with
  | [d] =>
    match create_texture d with
    | .ok t => .ok (materialRecord source t)
    | .error e => .error e
  | _ => .error .assertionError

/-- The seed value 1e38 used for the bounding-box sentinels. -/
def bigQ : ℚ := 10 ^ 38

/-- One loop iteration of calculate_world_bounds: skip cameras, otherwise
fold the world-transformed bound-box corners into the running componentwise
min/max (Python's `min(coords + [acc])` is the right fold of `min` over the
coordinate list with the accumulator as seed). -/
def boundsStep (acc : Vec3 × Vec3) (o : BObject) : Vec3 × Vec3 :=
  if o.otype = "CAMERA" then acc
  else
    let points := o.bound_box.map o.matrix_world
    (⟨(points.map Vec3.x).foldr min acc.1.x,
      (points.map Vec3.y).foldr min acc.1.y,
      (points.map Vec3.z).foldr min acc.1.z⟩,
     ⟨(points.map Vec3.x).foldr max acc.2.x,
      (points.map Vec3.y).foldr max acc.2.y,
      (points.map Vec3.z).foldr max acc.2.z⟩)

/-- calculate_world_bounds: fold every scene object (cameras excluded inside
the step) into min/max accumulators seeded with ±1e38. -/
def calculate_world_bounds (s : Scene) : Vec3 × Vec3 :=
  s.objects.foldl boundsStep (⟨bigQ, bigQ, bigQ⟩, ⟨-bigQ, -bigQ, -bigQ⟩)

/-- One emitted vertex: transformed position components, a literal 0, the
normal components, then the UV pair with V negated.  `vector_to_edm` is not
part of the given source tree and is passed in as `v2e`. -/
def mkVert (v2e : Vec3 → Vec3) (verts : List MeshVertex) (vtxIndex : ℕ)
    (uv : ℚ × ℚ) : Vertex :=
  (v2e (verts.getD vtxIndex default).co).toList ++ [0] ++
    (v2e (verts.getD vtxIndex default).normal).toList ++ [uv.1, -uv.2]

/-- The inner vertex-emission loop of one face:
`for i, vtxIndex in enumerate(face.vertices)` pairing each face vertex with
`uvFace.uv[i]` (out-of-range UV access modelled with a (0,0) default). -/
def faceVertsAux (v2e : Vec3 → Vec3) (verts : List MeshVertex) :
    List ℕ → List (ℚ × ℚ) → List Vertex
  | [], _ => []
  | vi :: rest, uvs => mkVert v2e verts vi (uvs.headD (0, 0)) ::
      faceVertsAux v2e verts rest uvs.tail

/-- All vertices emitted for one face/UV-face pair. -/
def faceVerts (v2e : Vec3 → Vec3) (verts : List MeshVertex)
    (p : Face × UVFace) : List Vertex :=
  faceVertsAux v2e verts p.1.vertices p.2.uv

/-- The index values appended for one face: `newFaceIndex` is the local
index list offset by the number of vertices already emitted (`base`), and
the triangle table is (0,1,2) for a 3-vertex face, else (0,1,2),(2,3,0). -/
def triIndices (base n : ℕ) : List ℕ :=
  let newFaceIndex := (List.range n).map (fun x => base + x)
  let triangles : List (ℕ × ℕ × ℕ) :=
    if n = 3 then [(0, 1, 2)] else [(0, 1, 2), (2, 3, 0)]
  triangles.flatMap (fun t =>
    [newFaceIndex.getD t.1 0, newFaceIndex.getD t.2.1 0, newFaceIndex.getD t.2.2 0])

/-- The face loop of create_rendernode: running vertex and index buffers,
each face appending its fresh vertices and its offset triangle indices. -/
def flattenFaces (v2e : Vec3 → Vec3) (verts : List MeshVertex) :
    List (Face × UVFace) → List Vertex → List ℕ → List Vertex × List ℕ
  | [], newVertices, newIndexValues => (newVertices, newIndexValues)
  | p :: rest, newVertices, newIndexValues =>
    flattenFaces v2e verts rest
      (newVertices ++ faceVerts v2e verts p)
      (newIndexValues ++ triIndices newVertices.length p.1.vertices.length)

/-- `mesh.transform(source.matrix_local)`: the host applies the local matrix
to every vertex coordinate of the transient mesh. -/
def transformedVerts (o : BObject) : List MeshVertex :=
  o.mesh.vertices.map (fun mv => { mv with co := o.matrix_local mv.co })

/-- create_rendernode.  The first component is the produced RenderNode or
the error raised on the way (a missing active UV layer); the second
component counts the transient meshes left behind in the host's mesh data
when the call returns: the source calls `bpy.data.meshes.remove(mesh)` only
on the straight-line path after the node is built (no try/finally), so the
mesh created by `to_mesh` survives an error raised in between. -/
def create_rendernode (v2e : Vec3 → Vec3) (materialName : String)
    (source : BObject) : Except ExportError RenderNode × ℕ :=
  let verts := transformedVerts source
  match source.mesh.uv with
  | none => (.error .missingUV, 1)
  | some uvLayer =>
    let pairs := source.mesh.tessfaces.zip uvLayer
    let vi := flattenFaces v2e verts pairs [] []
    (.ok { name := source.name
           materialName := materialName
           parent := source.parent
           vertexData := vi.1
           indexData := vi.2 }, 0)

/-- `[x for x in bpy.context.scene.objects if x.type == "MESH"]`. -/
def allMeshObj (s : Scene) : List BObject :=
  s.objects.filter (fun o => o.otype = "MESH")

/-- `obj.material_slots[0].material`: IndexError on an empty slot list. -/
def slot0 (o : BObject) : Except ExportError BMaterial :=
  match o.material_slots with
  | [] => .error .indexError
  | m :: _ => .ok m

/-- The last position of a name in the list of used material names.  Because
`materialMap` is keyed by name and `mat.index = i` mutates the shared
Material object, the index every alias of a material finally carries is the
one assigned at the name's last occurrence. -/
def lastIdxOf (names : List String) (n : String) : ℕ :=
  (((names.zip (List.range names.length)).filter
      (fun p => p.1 = n)).map Prod.snd).getLastD 0

/-- The dictionary `materialMap[name]`: later entries of the comprehension
overwrite earlier ones, so the created material of the last source material
bearing the name wins. -/
def materialMapLookup (allMats : List BMaterial) (created : List Material)
    (n : String) : Material :=
  (((allMats.zip created).filter (fun p => p.1.name = n)).map Prod.snd).getLastD default

/-- The materials list write_file assembles: one append per entry of
`all_Materials` (one per mesh object), each element being the shared mapped
Material carrying its final (last-assigned) index. -/
def assembledMaterials (allMats : List BMaterial) (created : List Material) :
    List Material :=
  let names := allMats.map BMaterial.name
  allMats.map (fun bm =>
    { materialMapLookup allMats created bm.name with index := lastIdxOf names bm.name })

/-- The node-table loop of write_file over the render nodes' parent
references, starting from a node list already holding entries: a parentless
render node resolves to 0; otherwise the parent is appended and the render
node resolves to the new last position.  Returns the final node table and
the per-render-node parent indices. -/
def buildNodesAux : List (Option String) → List NodeEntry → List NodeEntry × List ℕ
  | [], nodes => (nodes, [])
  | none :: rest, nodes =>
    let r := buildNodesAux rest nodes
    (r.1, 0 :: r.2)
  | some p :: rest, nodes =>
    let nodes2 := nodes ++ [NodeEntry.parentRef p]
    let r := buildNodesAux rest nodes2
    (r.1, (nodes2.length - 1) :: r.2)

/-- `nodes = [Node()]` followed by the parent-resolution loop. -/
def buildNodeTable (parents : List (Option String)) : List NodeEntry × List ℕ :=
  buildNodesAux parents [NodeEntry.root]

/-- The render-node construction step of write_file's loop body:
`material = materialMap[obj.material_slots[0].material.name]` then
`create_rendernode(obj, material, options)` (the transient-mesh counter of
create_rendernode is dropped here; write_file only sees the node or the
raised error). -/
def buildRN (v2e : Vec3 → Vec3) (o : BObject) : Except ExportError RenderNode :=
  match slot0 o with
  | .error e => .error e
  | .ok bm => (create_rendernode v2e bm.name o).1

/-- write_file: gather mesh objects, take each one's first material slot,
build the material map and the per-object materials list, build one render
node per object, resolve parents into the node table and materials into
indices, compute the world bounds, and only then (on this success path the
source constructs `BaseWriter(filename)`) produce the output. -/
def write_file (v2e : Vec3 → Vec3) (s : Scene) : Except ExportError ExportOutput :=
  let meshes := allMeshObj s
  match mapE slot0 meshes with
  | .error e => .error e
  | .ok allMats =>
    match mapE create_material allMats with
    | .error e => .error e
    | .ok created =>
      let names := allMats.map BMaterial.name
      let materials := assembledMaterials allMats created
      match mapE (buildRN v2e) meshes with
      | .error e => .error e
      | .ok rns =>
        let nt := buildNodeTable (rns.map RenderNode.parent)
        let resolved := (rns.zip nt.2).map (fun p =>
          { name := p.1.name
            parentIdx := p.2
            materialIdx := lastIdxOf names p.1.materialName
            vertexData := p.1.vertexData
            indexData := p.1.indexData : ResolvedRN })
        let b := calculate_world_bounds s
        .ok { materials := materials
              nodes := nt.1
              renderNodes := resolved
              bboxmin := v2e b.1
              bboxmax := v2e b.2 }

/-- A texture slot whose image filename carries an extension. -/
def slotDotted : TextureSlot :=
  { use_map_color_diffuse := true, use_map_normal := false,
    use_map_specular := false, filepath := "textures/wood.png" }

/-- A texture slot whose image filename has no dot at all. -/
def slotNoDot : TextureSlot :=
  { use_map_color_diffuse := true, use_map_normal := false,
    use_map_specular := false, filepath := "textures/wood" }

/-- A well-formed source material: exactly one diffuse-flagged slot, mirror
disabled. -/
def bmatOK : BMaterial :=
  { name := "M", edm_blending := 0, edm_material := "def_material",
    specular_hardness := 50, specular_intensity := 1/2,
    diffuse_intensity := 1,
    raytrace_mirror := { use := false, reflect_factor := 0, gloss_factor := 0 },
    use_shadows := true, use_cast_shadows := true, use_cast_shadows_only := false,
    texture_slots := [some slotDotted, none] }

/-- A source material with no diffuse-flagged texture slot. -/
def bmatNoDiffuse : BMaterial :=
  { bmatOK with name := "BAD", texture_slots := [none] }

/-- A mesh object whose transient mesh has no active UV layer. -/
def objNoUV : BObject :=
  { name := "A", otype := "MESH", material_slots := [bmatOK], parent := none,
    matrix_local := fun v => v, matrix_world := fun v => v,
    bound_box := [],
    mesh := { vertices := [], tessfaces := [], uv := none } }

/-- A mesh object with one degenerate all-zero triangle and an active UV
layer; create_rendernode succeeds on it. -/
def objOK : BObject :=
  { name := "A", otype := "MESH", material_slots := [bmatOK], parent := none,
    matrix_local := fun v => v, matrix_world := fun v => v,
    bound_box := [⟨0, 0, 0⟩],
    mesh := { vertices := [⟨⟨0, 0, 0⟩, ⟨0, 0, 0⟩⟩],
              tessfaces := [⟨[0, 0, 0]⟩],
              uv := some [⟨[(0, 0), (0, 0), (0, 0)]⟩] } }

/-- The render node create_rendernode produces for `objOK`. -/
def nodeOK : RenderNode :=
  { name := "A", materialName := "M", parent := none,
    vertexData := [[0, 0, 0, 0, 0, 0, 0, 0, 0],
                   [0, 0, 0, 0, 0, 0, 0, 0, 0],
                   [0, 0, 0, 0, 0, 0, 0, 0, 0]],
    indexData := [0, 1, 2] }

/-- Spec-side description of the parent indices: a parentless entry gets 0,
an entry with a parent gets the next fresh table position, starting from
`base`. -/
def parentIdxSpec (base : ℕ) : List (Option String) → List ℕ
  | [] => []
  | none :: rest => 0 :: parentIdxSpec base rest
  | some _ :: rest => base :: parentIdxSpec (base + 1) rest

/-- Spec-side description of the emitted index buffer: a 3-vertex face at
running offset `b` contributes the single triangle (b, b+1, b+2); a
4-vertex face contributes the triangles (b, b+1, b+2) and (b+2, b+3, b);
the offset advances by the face's vertex count. -/
def idxSpec (b : ℕ) : List (Face × UVFace) → List ℕ
  | [] => []
  | p :: rest =>
    (if p.1.vertices.length = 3 then [b, b + 1, b + 2]
     else [b, b + 1, b + 2, b + 2, b + 3, b]) ++
      idxSpec (b + p.1.vertices.length) rest

/-- The world-transformed bound-box corners of every non-camera object in a
list, in order. -/
def cornersOf (objs : List BObject) : List Vec3 :=
  ((objs.filter (fun o => o.otype ≠ "CAMERA")).map
    (fun o => o.bound_box.map o.matrix_world)).flatten

/-- Spec-side corner list for a scene: every scene object except cameras
contributes its world-transformed bound-box corner points. -/
def worldCorners (s : Scene) : List Vec3 := cornersOf s.objects

/-- A unit cube's eight local bound-box corners. -/
def cubeCorners : List Vec3 :=
  [⟨0, 0, 0⟩, ⟨0, 0, 1⟩, ⟨0, 1, 1⟩, ⟨0, 1, 0⟩,
   ⟨1, 0, 0⟩, ⟨1, 0, 1⟩, ⟨1, 1, 1⟩, ⟨1, 1, 0⟩]

/-- A single mesh cube at the origin. -/
def cubeObj : BObject :=
  { name := "Cube", otype := "MESH", material_slots := [bmatOK], parent := none,
    matrix_local := fun v => v, matrix_world := fun v => v,
    bound_box := cubeCorners,
    mesh := { vertices := [⟨⟨0, 0, 0⟩, ⟨0, 0, 0⟩⟩],
              tessfaces := [⟨[0, 0, 0]⟩],
              uv := some [⟨[(0, 0), (0, 0), (0, 0)]⟩] } }

/-- A scene holding only the cube. -/
def singleScene : Scene := ⟨[cubeObj]⟩

/-- A mesh object whose sole material has no diffuse-flagged slot. -/
def badObj : BObject :=
  { name := "B", otype := "MESH", material_slots := [bmatNoDiffuse],
    parent := none, matrix_local := fun v => v, matrix_world := fun v => v,
    bound_box := [], mesh := { vertices := [], tessfaces := [], uv := some [] } }

/-- A scene holding only the object with the invalid material. -/
def badScene : Scene := ⟨[badObj]⟩

/-- A mesh object with no material slots at all. -/
def emptySlotObj : BObject :=
  { name := "E", otype := "MESH", material_slots := [], parent := none,
    matrix_local := fun v => v, matrix_world := fun v => v,
    bound_box := [], mesh := { vertices := [], tessfaces := [], uv := none } }

/-- A scene holding only the slotless mesh object. -/
def emptySlotScene : Scene := ⟨[emptySlotObj]⟩

/-- A second mesh object sharing the same source material as `objOK`. -/
def objB : BObject :=
  { objOK with name := "B" }

/-- A scene with two mesh objects referencing the identical source
material. -/
def sharedMatScene : Scene := ⟨[objOK, objB]⟩

/-- C8: the claim says the texture name preserves the full extensionless
base name for any filename, with or without dots.  The code computes
`texName[:texName.find(".")]`, and Python's `find` returns -1 when no dot
exists, so an extensionless filename loses its final character: the slot
with filepath "textures/wood" yields the texture name "woo", while the
dotted "textures/wood.png" correctly yields "wood". -/
theorem c8_extensionless_name_truncated :
    create_texture slotDotted = Except.ok { index := 0, name := "wood" } ∧
    create_texture slotNoDot = Except.ok { index := 0, name := "woo" } := by
  constructor <;> rfl

/-- C9 counterexample: the claim says the transient mesh is released even
when a failure occurs between mesh creation and RenderNode completion.  On
an object whose mesh lacks an active UV layer, create_rendernode raises and
the transient mesh survives (the leftover-mesh count is 1, not 0), because
the source's `bpy.data.meshes.remove(mesh)` is not guarded by try/finally. -/
theorem c9_mesh_leaks_on_missing_uv :
    (create_rendernode (fun v => v) "M" objNoUV).2 ≠ 0 ∧
    (create_rendernode (fun v => v) "M" objNoUV).1 = Except.error ExportError.missingUV := by
  exact ⟨fun h => Nat.one_ne_zero h, rfl⟩

/-- C9 (amended): the transient mesh created from the object is released
immediately after that object's RenderNode is produced whenever production
succeeds; a failure between mesh creation and completion (a missing active
UV layer) skips the release. -/
theorem c9_mesh_removed_on_success :
    ∀ (v2e : Vec3 → Vec3) (mn : String) (o : BObject) (node : RenderNode),
      (create_rendernode v2e mn o).1 = Except.ok node →
      (create_rendernode v2e mn o).2 = 0 := by
  intro v2e mn o node h
  cases huv : o.mesh.uv with
  | none => rw [create_rendernode, huv] at h; exact absurd h (by simp)
  | some l => rw [create_rendernode, huv]

/-- C9 amended-claim witness: a concrete successful flattening, with the
mesh released. -/
theorem c9_mesh_removed_on_success_witness :
    (create_rendernode (fun v => v) "M" objOK).2 = 0 :=
  c9_mesh_removed_on_success (fun v => v) "M" objOK nodeOK rfl

/-- Helper: a slot that made it into `diffuseSlots` has the diffuse flag
set, so create_texture classifies it as channel 0 and succeeds. -/
theorem create_texture_of_diffuse (d : TextureSlot)
    (hd : d.use_map_color_diffuse = true) :
    create_texture d = Except.ok { index := 0, name := textureBaseName d.filepath } := by
  simp [create_texture, hd]

/-- Helper: membership in `diffuseSlots` implies the diffuse flag. -/
theorem diffuse_flag_of_mem_diffuseSlots (m : BMaterial) (d : TextureSlot)
    (hd : d ∈ diffuseSlots m) : d.use_map_color_diffuse = true := by
  exact (List.mem_filter.mp hd).2

/-- Helper: a successful create_material yields exactly the record built
from the source and its single diffuse slot's texture. -/
theorem create_material_ok_elim (m : BMaterial) (mat : Material)
    (h : create_material m = Except.ok mat) :
    ∃ d, diffuseSlots m = [d] ∧
      mat = materialRecord m { index := 0, name := textureBaseName d.filepath } := by
  rcases hd : diffuseSlots m with _ | ⟨d, _ | ⟨d2, t⟩⟩
  · simp [create_material, hd] at h
  · have hflag : d.use_map_color_diffuse = true :=
      diffuse_flag_of_mem_diffuseSlots m d (by rw [hd]; exact List.Mem.head _)
    have hct := create_texture_of_diffuse d hflag
    simp [create_material, hd, hct] at h
    exact ⟨d, rfl, h.symm⟩
  · simp [create_material, hd] at h

/-- C6: for every source material accepted by the builder, the uniform map
holds exactly the keys specPower, specFactor, diffuseValue, reflectionValue
(value 0) when the mirror sub-descriptor is disabled; with the mirror
enabled, reflectionValue carries the reflect factor and the extra key
reflectionBlurring carries 1 minus the gloss factor; and the
texture-coordinate-channel table is always the 12-entry sequence 0 followed
by eleven -1 entries. -/
theorem c6_uniforms_and_channels (m : BMaterial) (mat : Material)
    (h : create_material m = Except.ok mat) :
    (mat.uniforms.map Prod.fst =
      if m.raytrace_mirror.use then
        ["specPower", "specFactor", "diffuseValue", "reflectionValue",
         "reflectionBlurring"]
      else ["specPower", "specFactor", "diffuseValue", "reflectionValue"]) ∧
    mat.uniforms.lookup "reflectionValue" =
      some (if m.raytrace_mirror.use then m.raytrace_mirror.reflect_factor else 0) ∧
    (m.raytrace_mirror.use = true →
      mat.uniforms.lookup "reflectionBlurring" =
        some (1 - m.raytrace_mirror.gloss_factor)) ∧
    mat.texture_coordinates_channels = (0 : ℤ) :: List.replicate 11 (-1) := by
  obtain ⟨d, hd, hmat⟩ := create_material_ok_elim m mat h
  subst hmat
  cases hu : m.raytrace_mirror.use <;>
    simp [materialRecord, uniformsOf, hu, List.lookup]

/-- C6 witness: the concrete well-formed material `bmatOK` (mirror off). -/
theorem c6_uniforms_and_channels_witness :
    (materialRecord bmatOK { index := 0, name := "wood" }).uniforms.map Prod.fst =
        (if bmatOK.raytrace_mirror.use then
          ["specPower", "specFactor", "diffuseValue", "reflectionValue",
           "reflectionBlurring"]
        else ["specPower", "specFactor", "diffuseValue", "reflectionValue"]) ∧
      (materialRecord bmatOK { index := 0, name := "wood" }).uniforms.lookup
          "reflectionValue" =
        some (if bmatOK.raytrace_mirror.use then
          bmatOK.raytrace_mirror.reflect_factor else 0) ∧
      (bmatOK.raytrace_mirror.use = true →
        (materialRecord bmatOK { index := 0, name := "wood" }).uniforms.lookup
            "reflectionBlurring" =
          some (1 - bmatOK.raytrace_mirror.gloss_factor)) ∧
      (materialRecord bmatOK { index := 0, name := "wood" }).texture_coordinates_channels =
        (0 : ℤ) :: List.replicate 11 (-1) :=
  c6_uniforms_and_channels bmatOK (materialRecord bmatOK { index := 0, name := "wood" })
    (by rfl)

/-- Helper: the node loop appends exactly the present parents, in order,
after the initial table, and assigns the indices `parentIdxSpec` describes. -/
theorem buildNodesAux_eq (ps : List (Option String)) :
    ∀ init, buildNodesAux ps init =
      (init ++ (ps.filterMap id).map NodeEntry.parentRef,
       parentIdxSpec init.length ps) := by
  induction ps with
  | nil => intro init; simp [buildNodesAux, parentIdxSpec]
  | cons a rest ih =>
    intro init
    cases a with
    | none => simp [buildNodesAux, parentIdxSpec, ih]
    | some p => simp [buildNodesAux, parentIdxSpec, ih, List.length_append]

/-- Helper: `parentIdxSpec` preserves length. -/
theorem parentIdxSpec_length (ps : List (Option String)) :
    ∀ b, (parentIdxSpec b ps).length = ps.length := by
  induction ps with
  | nil => intro b; rfl
  | cons a rest ih => intro b; cases a <;> simp [parentIdxSpec, ih]

/-- Helper: a parentless position resolves to index 0. -/
theorem parentIdxSpec_get_none (ps : List (Option String)) :
    ∀ (b k : ℕ), ps[k]? = some none → (parentIdxSpec b ps)[k]? = some 0 := by
  induction ps with
  | nil => intro b k h; simp at h
  | cons a rest ih =>
    intro b k h
    cases k with
    | zero => cases a <;> simp_all [parentIdxSpec]
    | succ k =>
      rw [List.getElem?_cons_succ] at h
      cases a <;> simp [parentIdxSpec, List.getElem?_cons_succ, ih _ k h]

/-- Helper: a position with a parent resolves to `b` plus the number of
parents appended before it. -/
theorem parentIdxSpec_get_some (ps : List (Option String)) :
    ∀ (b k : ℕ) (p : String), ps[k]? = some (some p) →
      (parentIdxSpec b ps)[k]? =
        some (b + ((ps.take k).filterMap id).length) := by
  induction ps with
  | nil => intro b k p h; simp at h
  | cons a rest ih =>
    intro b k p h
    cases k with
    | zero => cases a <;> simp_all [parentIdxSpec]
    | succ k =>
      rw [List.getElem?_cons_succ] at h
      cases a with
      | none =>
        simp [parentIdxSpec, List.getElem?_cons_succ, ih _ k p h]
      | some q =>
        simp [parentIdxSpec, List.getElem?_cons_succ, ih _ k p h]
        omega

/-- Helper: the appended parent list holds the k-th parent at the position
counted by the parents present before k. -/
theorem filterMap_get_of_get (ps : List (Option String)) :
    ∀ (k : ℕ) (p : String), ps[k]? = some (some p) →
      (ps.filterMap id)[((ps.take k).filterMap id).length]? = some p := by
  induction ps with
  | nil => intro k p h; simp at h
  | cons a rest ih =>
    intro k p h
    cases k with
    | zero =>
      rw [List.getElem?_cons_zero] at h
      injection h with h
      subst h
      simp
    | succ k =>
      rw [List.getElem?_cons_succ] at h
      cases a with
      | none => simpa using ih k p h
      | some q => simpa using ih k p h

/-- C4: the node table starts with the implicit root at index 0; a render
node without a parent resolves its parent index to 0; a render node with a
parent resolves to the index of the entry freshly appended for that parent
(1 plus the number of parents appended before it), which is a valid index
into the final node table and holds that parent. -/
theorem c4_parent_resolution (parents : List (Option String)) :
    ((buildNodeTable parents).1[0]? = some NodeEntry.root) ∧
    ((buildNodeTable parents).2.length = parents.length) ∧
    (∀ (k : ℕ), parents[k]? = some none →
      (buildNodeTable parents).2[k]? = some 0) ∧
    (∀ (k : ℕ) (p : String), parents[k]? = some (some p) →
      ∃ j, (buildNodeTable parents).2[k]? = some j ∧
        j = 1 + ((parents.take k).filterMap id).length ∧
        0 < j ∧ j < (buildNodeTable parents).1.length ∧
        (buildNodeTable parents).1[j]? = some (NodeEntry.parentRef p)) := by
  have hb := buildNodesAux_eq parents [NodeEntry.root]
  refine ⟨?_, ?_, ?_, ?_⟩
  · rw [buildNodeTable, hb]; simp
  · rw [buildNodeTable, hb]; simpa using parentIdxSpec_length parents 1
  · intro k h
    rw [buildNodeTable, hb]
    simpa using parentIdxSpec_get_none parents 1 k h
  · intro k p h
    rw [buildNodeTable, hb]
    refine ⟨1 + ((parents.take k).filterMap id).length, ?_, rfl, ?_, ?_, ?_⟩
    · simpa using parentIdxSpec_get_some parents 1 k p h
    · omega
    · have hg := filterMap_get_of_get parents k p h
      have hlt := (List.getElem?_eq_some.mp hg).choose
      simp only [List.singleton_append, List.length_cons, List.length_map]
      omega
    · have hg := filterMap_get_of_get parents k p h
      show (NodeEntry.root :: (parents.filterMap id).map NodeEntry.parentRef)[
          1 + ((parents.take k).filterMap id).length]? = _
      rw [Nat.add_comm, List.getElem?_cons_succ,
        List.getElem?_map NodeEntry.parentRef, hg]
      rfl

/-- C4 witness: a parentless node and a node with parent "P". -/
theorem c4_parent_resolution_witness :
    (buildNodeTable [none, some "P"]).2[0]? = some 0 ∧
    ∃ j, (buildNodeTable [none, some "P"]).2[1]? = some j ∧
      j = 1 + (([none, some "P"].take 1).filterMap id).length ∧
      0 < j ∧ j < (buildNodeTable [none, some "P"]).1.length ∧
      (buildNodeTable [none, some "P"]).1[j]? =
        some (NodeEntry.parentRef "P") := by
  obtain ⟨h1, h2, h3, h4⟩ := c4_parent_resolution [none, some "P"]
  exact ⟨h3 0 rfl, h4 1 "P" rfl⟩

/-- Helper: each face emits exactly one vertex per face-vertex index. -/
theorem faceVertsAux_length (v2e : Vec3 → Vec3) (verts : List MeshVertex) :
    ∀ (vs : List ℕ) (uvs : List (ℚ × ℚ)),
      (faceVertsAux v2e verts vs uvs).length = vs.length := by
  intro vs
  induction vs with
  | nil => intro uvs; rfl
  | cons vi rest ih => intro uvs; simp [faceVertsAux, ih]

/-- Helper: the vertex buffer accumulated by the face loop is the
concatenation of each face's fresh vertex block, in face order. -/
theorem flattenFaces_fst (v2e : Vec3 → Vec3) (verts : List MeshVertex) :
    ∀ (pairs : List (Face × UVFace)) (nv : List Vertex) (ni : List ℕ),
      (flattenFaces v2e verts pairs nv ni).1 =
        nv ++ (pairs.map (faceVerts v2e verts)).flatten := by
  intro pairs
  induction pairs with
  | nil => intro nv ni; simp [flattenFaces]
  | cons p rest ih =>
    intro nv ni
    simp [flattenFaces, ih, List.append_assoc]

/-- Helper: the triangle table of a 3-vertex face at offset `base`. -/
theorem triIndices_three (base : ℕ) : triIndices base 3 = [base, base + 1, base + 2] := rfl

/-- Helper: the triangle table of a 4-vertex face at offset `base`. -/
theorem triIndices_four (base : ℕ) :
    triIndices base 4 = [base, base + 1, base + 2, base + 2, base + 3, base] := rfl

/-- Helper: with only 3- and 4-vertex faces, the face loop produces exactly
the per-face fresh vertex blocks and the fan-split index buffer. -/
theorem flattenFaces_eq (v2e : Vec3 → Vec3) (verts : List MeshVertex) :
    ∀ (pairs : List (Face × UVFace)) (nv : List Vertex) (ni : List ℕ),
      (∀ p ∈ pairs, p.1.vertices.length = 3 ∨ p.1.vertices.length = 4) →
      flattenFaces v2e verts pairs nv ni =
        (nv ++ (pairs.map (faceVerts v2e verts)).flatten,
         ni ++ idxSpec nv.length pairs) := by
  intro pairs
  induction pairs with
  | nil => intro nv ni _; simp [flattenFaces, idxSpec]
  | cons p rest ih =>
    intro nv ni hsz
    have hp := hsz p (List.Mem.head _)
    have hrest : ∀ q ∈ rest, q.1.vertices.length = 3 ∨ q.1.vertices.length = 4 :=
      fun q hq => hsz q (List.Mem.tail _ hq)
    have hlen : (nv ++ faceVerts v2e verts p).length =
        nv.length + p.1.vertices.length := by
      simp [List.length_append, faceVerts, faceVertsAux_length]
    rw [flattenFaces, ih _ _ hrest, hlen]
    rcases hp with h3 | h4
    · simp [idxSpec, h3, triIndices_three, List.append_assoc]
    · rw [h4]
      simp [idxSpec, h4, triIndices_four, List.append_assoc]

/-- C2: over any face list containing only 3- and 4-vertex faces, the
flattener emits, per face, one fresh vertex per face vertex (3 for a
triangle, 4 for a quad, no sharing across faces: the buffer is the
concatenation of per-face blocks) and the index buffer is exactly the
fan-split triangles (0,1,2) for a triangle and (0,1,2),(2,3,0) for a quad,
each offset by the number of vertices emitted before that face; the total
vertex count is the sum of the face sizes. -/
theorem c2_triangulation (v2e : Vec3 → Vec3) (verts : List MeshVertex)
    (pairs : List (Face × UVFace))
    (hsz : ∀ p ∈ pairs, p.1.vertices.length = 3 ∨ p.1.vertices.length = 4) :
    flattenFaces v2e verts pairs [] [] =
      ((pairs.map (faceVerts v2e verts)).flatten, idxSpec 0 pairs) ∧
    (flattenFaces v2e verts pairs [] []).1.length =
      (pairs.map (fun p => p.1.vertices.length)).sum := by
  have h := flattenFaces_eq v2e verts pairs [] [] hsz
  refine ⟨by simpa using h, ?_⟩
  have hfl : ∀ p : Face × UVFace,
      (faceVerts v2e verts p).length = p.1.vertices.length :=
    fun p => by simp [faceVerts, faceVertsAux_length]
  rw [flattenFaces_fst]
  simp only [List.nil_append, List.length_flatten, List.map_map]
  congr 1
  refine List.map_congr_left ?_
  intro p _
  simp [Function.comp, hfl]

/-- C2 witness: one triangle face followed by one quad face. -/
theorem c2_triangulation_witness :
    flattenFaces (fun v => v) [⟨⟨1, 2, 3⟩, ⟨0, 0, 1⟩⟩]
        [(⟨[0, 0, 0]⟩, ⟨[(0, 0), (0, 0), (0, 0)]⟩),
         (⟨[0, 0, 0, 0]⟩, ⟨[(0, 0), (0, 0), (0, 0), (0, 0)]⟩)] [] [] =
      (([(⟨[0, 0, 0]⟩, ⟨[(0, 0), (0, 0), (0, 0)]⟩),
         (⟨[0, 0, 0, 0]⟩, ⟨[(0, 0), (0, 0), (0, 0), (0, 0)]⟩)].map
          (faceVerts (fun v => v) [⟨⟨1, 2, 3⟩, ⟨0, 0, 1⟩⟩])).flatten,
       idxSpec 0 [(⟨[0, 0, 0]⟩, ⟨[(0, 0), (0, 0), (0, 0)]⟩),
         (⟨[0, 0, 0, 0]⟩, ⟨[(0, 0), (0, 0), (0, 0), (0, 0)]⟩)]) :=
  (c2_triangulation (fun v => v) [⟨⟨1, 2, 3⟩, ⟨0, 0, 1⟩⟩]
    [(⟨[0, 0, 0]⟩, ⟨[(0, 0), (0, 0), (0, 0)]⟩),
     (⟨[0, 0, 0, 0]⟩, ⟨[(0, 0), (0, 0), (0, 0), (0, 0)]⟩)] (by decide)).1

/-- Helper: `headD` is `getD 0`. -/
theorem headD_eq_getD_zero (uvs : List (ℚ × ℚ)) :
    uvs.headD (0, 0) = uvs.getD 0 (0, 0) := by
  cases uvs <;> rfl

/-- Helper: dropping the head shifts positional UV lookup by one. -/
theorem tail_getD_succ (uvs : List (ℚ × ℚ)) (i : ℕ) :
    uvs.tail.getD i (0, 0) = uvs.getD (i + 1) (0, 0) := by
  cases uvs <;> rfl

/-- Helper: every vertex emitted for a face comes from some position `i` of
the face's vertex-index list, paired with the i-th UV entry. -/
theorem mem_faceVertsAux (v2e : Vec3 → Vec3) (verts : List MeshVertex) :
    ∀ (vs : List ℕ) (uvs : List (ℚ × ℚ)) (vtx : Vertex),
      vtx ∈ faceVertsAux v2e verts vs uvs →
      ∃ (i vi : ℕ), vs[i]? = some vi ∧
        vtx = mkVert v2e verts vi (uvs.getD i (0, 0)) := by
  intro vs
  induction vs with
  | nil => intro uvs vtx h; simp [faceVertsAux] at h
  | cons v0 rest ih =>
    intro uvs vtx h
    rcases List.mem_cons.mp h with hh | ht
    · exact ⟨0, v0, by simp, by rw [hh, headD_eq_getD_zero]⟩
    · obtain ⟨i, vi, hg, he⟩ := ih uvs.tail vtx ht
      exact ⟨i + 1, vi, by simpa using hg, by rw [he, tail_getD_succ]⟩

/-- C3: every vertex emitted by create_rendernode is, for some face of the
mesh paired with its UV-layer entry and some position `i` in that face, the
concatenation of the transformed position's 3 components, a literal 0, the
vertex normal's 3 components, and the 2-component texture coordinate whose
U is the source U and whose V is the negated source V. -/
theorem c3_vertex_layout (v2e : Vec3 → Vec3) (mn : String) (o : BObject)
    (node : RenderNode) (hok : (create_rendernode v2e mn o).1 = Except.ok node)
    (vtx : Vertex) (hv : vtx ∈ node.vertexData) :
    ∃ (uvLayer : List UVFace) (f : Face) (u : UVFace) (i vi : ℕ),
      o.mesh.uv = some uvLayer ∧
      (f, u) ∈ o.mesh.tessfaces.zip uvLayer ∧
      f.vertices[i]? = some vi ∧
      vtx = (v2e ((transformedVerts o).getD vi default).co).toList ++ [0] ++
        (v2e ((transformedVerts o).getD vi default).normal).toList ++
        [(u.uv.getD i (0, 0)).1, -(u.uv.getD i (0, 0)).2] := by
  cases huv : o.mesh.uv with
  | none => rw [create_rendernode, huv] at hok; exact absurd hok (by simp)
  | some uvLayer =>
    rw [create_rendernode, huv] at hok
    simp only [Except.ok.injEq] at hok
    have hvd : node.vertexData =
        (flattenFaces v2e (transformedVerts o)
          (o.mesh.tessfaces.zip uvLayer) [] []).1 := by
      rw [← hok]
    rw [hvd, flattenFaces_fst, List.nil_append] at hv
    obtain ⟨blk, hblk, hvtx⟩ := List.mem_flatten.mp hv
    obtain ⟨p, hp, hpe⟩ := List.mem_map.mp hblk
    rw [← hpe] at hvtx
    obtain ⟨i, vi, hg, he⟩ :=
      mem_faceVertsAux v2e (transformedVerts o) p.1.vertices p.2.uv vtx hvtx
    exact ⟨uvLayer, p.1, p.2, i, vi, rfl, hp, hg, he⟩

/-- C3 witness: a concrete vertex emitted for the all-zero triangle object. -/
theorem c3_vertex_layout_witness :
    ∃ (uvLayer : List UVFace) (f : Face) (u : UVFace) (i vi : ℕ),
      objOK.mesh.uv = some uvLayer ∧
      (f, u) ∈ objOK.mesh.tessfaces.zip uvLayer ∧
      f.vertices[i]? = some vi ∧
      ([0, 0, 0, 0, 0, 0, 0, 0, 0] : Vertex) =
        ((fun v => v) ((transformedVerts objOK).getD vi default).co).toList ++ [0] ++
        ((fun v => v) ((transformedVerts objOK).getD vi default).normal).toList ++
        [(u.uv.getD i (0, 0)).1, -(u.uv.getD i (0, 0)).2] :=
  c3_vertex_layout (fun v => v) "M" objOK nodeOK rfl
    [0, 0, 0, 0, 0, 0, 0, 0, 0] (List.Mem.head _)

/-- Helper: a min-fold absorbs an element pushed into its seed. -/
theorem foldr_min_pull (l : List ℚ) : ∀ (a s : ℚ),
    l.foldr min (min a s) = min a (l.foldr min s) := by
  induction l with
  | nil => intro a s; rfl
  | cons b t ih =>
    intro a s
    simp only [List.foldr_cons, ih, min_left_comm]

/-- Helper: a max-fold absorbs an element pushed into its seed. -/
theorem foldr_max_pull (l : List ℚ) : ∀ (a s : ℚ),
    l.foldr max (max a s) = max a (l.foldr max s) := by
  induction l with
  | nil => intro a s; rfl
  | cons b t ih =>
    intro a s
    simp only [List.foldr_cons, ih, max_left_comm]

/-- Helper: folding two coordinate lists into a min seed in either order
gives the min over their concatenation. -/
theorem foldr_min_comm_seed (l1 : List ℚ) : ∀ (l2 : List ℚ) (s : ℚ),
    l2.foldr min (l1.foldr min s) = (l1 ++ l2).foldr min s := by
  induction l1 with
  | nil => intro l2 s; rfl
  | cons a t ih =>
    intro l2 s
    rw [List.cons_append, List.foldr_cons, List.foldr_cons, ← ih, foldr_min_pull]

/-- Helper: the max-fold analogue. -/
theorem foldr_max_comm_seed (l1 : List ℚ) : ∀ (l2 : List ℚ) (s : ℚ),
    l2.foldr max (l1.foldr max s) = (l1 ++ l2).foldr max s := by
  induction l1 with
  | nil => intro l2 s; rfl
  | cons a t ih =>
    intro l2 s
    rw [List.cons_append, List.foldr_cons, List.foldr_cons, ← ih, foldr_max_pull]

/-- Helper: the object-by-object bounds loop equals a single componentwise
fold over the concatenated corner list. -/
theorem foldl_boundsStep (objs : List BObject) : ∀ (acc : Vec3 × Vec3),
    objs.foldl boundsStep acc =
      (⟨((cornersOf objs).map Vec3.x).foldr min acc.1.x,
        ((cornersOf objs).map Vec3.y).foldr min acc.1.y,
        ((cornersOf objs).map Vec3.z).foldr min acc.1.z⟩,
       ⟨((cornersOf objs).map Vec3.x).foldr max acc.2.x,
        ((cornersOf objs).map Vec3.y).foldr max acc.2.y,
        ((cornersOf objs).map Vec3.z).foldr max acc.2.z⟩) := by
  induction objs with
  | nil =>
    intro acc
    obtain ⟨⟨a1, a2, a3⟩, ⟨b1, b2, b3⟩⟩ := acc
    simp [cornersOf]
  | cons o rest ih =>
    intro acc
    by_cases h : o.otype = "CAMERA"
    · have hstep : boundsStep acc o = acc := by simp [boundsStep, h]
      have hc : cornersOf (o :: rest) = cornersOf rest := by
        simp [cornersOf, h]
      rw [List.foldl_cons, hstep, hc, ih]
    · have hc : cornersOf (o :: rest) =
          o.bound_box.map o.matrix_world ++ cornersOf rest := by
        simp [cornersOf, h]
      have hstep : boundsStep acc o =
          (⟨((o.bound_box.map o.matrix_world).map Vec3.x).foldr min acc.1.x,
            ((o.bound_box.map o.matrix_world).map Vec3.y).foldr min acc.1.y,
            ((o.bound_box.map o.matrix_world).map Vec3.z).foldr min acc.1.z⟩,
           ⟨((o.bound_box.map o.matrix_world).map Vec3.x).foldr max acc.2.x,
            ((o.bound_box.map o.matrix_world).map Vec3.y).foldr max acc.2.y,
            ((o.bound_box.map o.matrix_world).map Vec3.z).foldr max acc.2.z⟩) := by
        simp [boundsStep, h]
      rw [List.foldl_cons, ih, hstep, hc]
      simp only [Prod.mk.injEq, Vec3.mk.injEq, List.map_append]
      exact ⟨⟨foldr_min_comm_seed _ _ _, foldr_min_comm_seed _ _ _,
              foldr_min_comm_seed _ _ _⟩,
             ⟨foldr_max_comm_seed _ _ _, foldr_max_comm_seed _ _ _,
              foldr_max_comm_seed _ _ _⟩⟩

/-- Helper: when every element of a list is bounded above by `c`, folding
min into the seed `c` equals the plain min over the list. -/
theorem foldr_min_drop_seed (l : List ℚ) : ∀ (a c : ℚ), a ≤ c →
    (∀ b ∈ l, b ≤ c) → (a :: l).foldr min c = l.foldr min a := by
  induction l with
  | nil => intro a c ha _; simpa using min_eq_left ha
  | cons b t ih =>
    intro a c ha hl
    have hb : b ≤ c := hl b (List.Mem.head _)
    have ht : ∀ x ∈ t, x ≤ c := fun x hx => hl x (List.Mem.tail _ hx)
    have h1 : (b :: t).foldr min c = t.foldr min b := ih b c hb ht
    calc (a :: b :: t).foldr min c = min a ((b :: t).foldr min c) := rfl
      _ = min a (t.foldr min b) := by rw [h1]
      _ = t.foldr min (min a b) := (foldr_min_pull t a b).symm
      _ = t.foldr min (min b a) := by rw [min_comm]
      _ = min b (t.foldr min a) := foldr_min_pull t b a
      _ = (b :: t).foldr min a := rfl

/-- Helper: the max analogue with a lower-bounding seed. -/
theorem foldr_max_drop_seed (l : List ℚ) : ∀ (a c : ℚ), c ≤ a →
    (∀ b ∈ l, c ≤ b) → (a :: l).foldr max c = l.foldr max a := by
  induction l with
  | nil => intro a c ha _; simpa using max_eq_left ha
  | cons b t ih =>
    intro a c ha hl
    have hb : c ≤ b := hl b (List.Mem.head _)
    have ht : ∀ x ∈ t, c ≤ x := fun x hx => hl x (List.Mem.tail _ hx)
    have h1 : (b :: t).foldr max c = t.foldr max b := ih b c hb ht
    calc (a :: b :: t).foldr max c = max a ((b :: t).foldr max c) := rfl
      _ = max a (t.foldr max b) := by rw [h1]
      _ = t.foldr max (max a b) := (foldr_max_pull t a b).symm
      _ = t.foldr max (max b a) := by rw [max_comm]
      _ = max b (t.foldr max a) := foldr_max_pull t b a
      _ = (b :: t).foldr max a := rfl

/-- C7: calculate_world_bounds returns the componentwise min and max,
seeded with +1e38 and -1e38, over the world-transformed bound-box corners
of every non-camera scene object; and for a scene holding a single
non-camera object whose corner coordinates lie within the sentinels, the
result is exactly the componentwise min/max of that object's transformed
corners. -/
theorem c7_bounds (s : Scene) :
    calculate_world_bounds s =
      (⟨((worldCorners s).map Vec3.x).foldr min bigQ,
        ((worldCorners s).map Vec3.y).foldr min bigQ,
        ((worldCorners s).map Vec3.z).foldr min bigQ⟩,
       ⟨((worldCorners s).map Vec3.x).foldr max (-bigQ),
        ((worldCorners s).map Vec3.y).foldr max (-bigQ),
        ((worldCorners s).map Vec3.z).foldr max (-bigQ)⟩) ∧
    (∀ (o : BObject) (q : Vec3) (qs : List Vec3),
      s.objects = [o] → o.otype ≠ "CAMERA" →
      o.bound_box.map o.matrix_world = q :: qs →
      (∀ p ∈ q :: qs, |p.x| ≤ bigQ ∧ |p.y| ≤ bigQ ∧ |p.z| ≤ bigQ) →
      calculate_world_bounds s =
        (⟨(qs.map Vec3.x).foldr min q.x, (qs.map Vec3.y).foldr min q.y,
          (qs.map Vec3.z).foldr min q.z⟩,
         ⟨(qs.map Vec3.x).foldr max q.x, (qs.map Vec3.y).foldr max q.y,
          (qs.map Vec3.z).foldr max q.z⟩)) := by
  have hmain : calculate_world_bounds s =
      (⟨((worldCorners s).map Vec3.x).foldr min bigQ,
        ((worldCorners s).map Vec3.y).foldr min bigQ,
        ((worldCorners s).map Vec3.z).foldr min bigQ⟩,
       ⟨((worldCorners s).map Vec3.x).foldr max (-bigQ),
        ((worldCorners s).map Vec3.y).foldr max (-bigQ),
        ((worldCorners s).map Vec3.z).foldr max (-bigQ)⟩) := by
    rw [calculate_world_bounds, foldl_boundsStep]
    rfl
  refine ⟨hmain, ?_⟩
  intro o q qs hobj hcam hpts hbd
  have hw : worldCorners s = q :: qs := by
    rw [worldCorners, hobj]
    simp [cornersOf, hcam, hpts]
  rw [hmain, hw]
  have habove : ∀ v : Vec3, v ∈ q :: qs →
      v.x ≤ bigQ ∧ v.y ≤ bigQ ∧ v.z ≤ bigQ := by
    intro v hv
    obtain ⟨h1, h2, h3⟩ := hbd v hv
    exact ⟨(abs_le.mp h1).2, (abs_le.mp h2).2, (abs_le.mp h3).2⟩
  have hbelow : ∀ v : Vec3, v ∈ q :: qs →
      -bigQ ≤ v.x ∧ -bigQ ≤ v.y ∧ -bigQ ≤ v.z := by
    intro v hv
    obtain ⟨h1, h2, h3⟩ := hbd v hv
    exact ⟨(abs_le.mp h1).1, (abs_le.mp h2).1, (abs_le.mp h3).1⟩
  have hmemx : ∀ b ∈ qs.map Vec3.x, b ≤ bigQ := by
    intro b hb
    obtain ⟨v, hv, he⟩ := List.mem_map.mp hb
    exact he ▸ (habove v (List.Mem.tail _ hv)).1
  have hmemy : ∀ b ∈ qs.map Vec3.y, b ≤ bigQ := by
    intro b hb
    obtain ⟨v, hv, he⟩ := List.mem_map.mp hb
    exact he ▸ (habove v (List.Mem.tail _ hv)).2.1
  have hmemz : ∀ b ∈ qs.map Vec3.z, b ≤ bigQ := by
    intro b hb
    obtain ⟨v, hv, he⟩ := List.mem_map.mp hb
    exact he ▸ (habove v (List.Mem.tail _ hv)).2.2
  have hmemx2 : ∀ b ∈ qs.map Vec3.x, -bigQ ≤ b := by
    intro b hb
    obtain ⟨v, hv, he⟩ := List.mem_map.mp hb
    exact he ▸ (hbelow v (List.Mem.tail _ hv)).1
  have hmemy2 : ∀ b ∈ qs.map Vec3.y, -bigQ ≤ b := by
    intro b hb
    obtain ⟨v, hv, he⟩ := List.mem_map.mp hb
    exact he ▸ (hbelow v (List.Mem.tail _ hv)).2.1
  have hmemz2 : ∀ b ∈ qs.map Vec3.z, -bigQ ≤ b := by
    intro b hb
    obtain ⟨v, hv, he⟩ := List.mem_map.mp hb
    exact he ▸ (hbelow v (List.Mem.tail _ hv)).2.2
  have hq := habove q (List.Mem.head _)
  have hq2 := hbelow q (List.Mem.head _)
  simp only [List.map_cons, Prod.mk.injEq, Vec3.mk.injEq]
  exact ⟨⟨foldr_min_drop_seed _ _ _ hq.1 hmemx,
          foldr_min_drop_seed _ _ _ hq.2.1 hmemy,
          foldr_min_drop_seed _ _ _ hq.2.2 hmemz⟩,
         ⟨foldr_max_drop_seed _ _ _ hq2.1 hmemx2,
          foldr_max_drop_seed _ _ _ hq2.2.1 hmemy2,
          foldr_max_drop_seed _ _ _ hq2.2.2 hmemz2⟩⟩

/-- C7 witness: the single-cube scene, whose bounds are the componentwise
min/max of the eight corners. -/
theorem c7_bounds_witness :
    calculate_world_bounds singleScene =
      (⟨((cubeCorners.tail).map Vec3.x).foldr min 0,
        ((cubeCorners.tail).map Vec3.y).foldr min 0,
        ((cubeCorners.tail).map Vec3.z).foldr min 0⟩,
       ⟨((cubeCorners.tail).map Vec3.x).foldr max 0,
        ((cubeCorners.tail).map Vec3.y).foldr max 0,
        ((cubeCorners.tail).map Vec3.z).foldr max 0⟩) :=
  (c7_bounds singleScene).2 cubeObj ⟨0, 0, 0⟩ cubeCorners.tail rfl
    (by decide) rfl (by decide)

/-- Helper: if some element of the list raises, and every error the body can
raise is `e0`, the whole loop raises `e0`. -/
theorem mapE_error_of_mem {α β : Type} (f : α → Except ExportError β)
    (e0 : ExportError) (hall : ∀ x e, f x = Except.error e → e = e0) :
    ∀ (l : List α), (∃ x ∈ l, ∃ e, f x = Except.error e) →
      mapE f l = Except.error e0 := by
  intro l
  induction l with
  | nil => intro h; obtain ⟨x, hx, _⟩ := h; simp at hx
  | cons a t ih =>
    intro h
    obtain ⟨x, hx, e, hfe⟩ := h
    cases hfa : f a with
    | error ea =>
      have := hall a ea hfa
      simp [mapE, hfa, this]
    | ok b =>
      rcases List.mem_cons.mp hx with rfl | hxt
      · rw [hfa] at hfe; exact absurd hfe (by simp)
      · have ht := ih ⟨x, hxt, e, hfe⟩
        simp [mapE, hfa, ht]

/-- Helper: if every element of the list succeeds, the loop succeeds. -/
theorem mapE_ok_of_forall {α β : Type} (f : α → Except ExportError β) :
    ∀ (l : List α), (∀ x ∈ l, ∃ y, f x = Except.ok y) →
      ∃ ys, mapE f l = Except.ok ys := by
  intro l
  induction l with
  | nil => intro _; exact ⟨[], rfl⟩
  | cons a t ih =>
    intro h
    obtain ⟨b, hb⟩ := h a (List.Mem.head _)
    obtain ⟨bs, hbs⟩ := ih (fun x hx => h x (List.Mem.tail _ hx))
    exact ⟨b :: bs, by simp [mapE, hb, hbs]⟩

/-- Helper: a successful loop's result contains the image of every element. -/
theorem mapE_ok_mem {α β : Type} (f : α → Except ExportError β) :
    ∀ (l : List α) (ys : List β), mapE f l = Except.ok ys →
      ∀ x ∈ l, ∀ y, f x = Except.ok y → y ∈ ys := by
  intro l
  induction l with
  | nil => intro ys _ x hx; simp at hx
  | cons a t ih =>
    intro ys hys x hx y hy
    cases hfa : f a with
    | error ea => rw [mapE, hfa] at hys; exact absurd hys (by simp)
    | ok b =>
      cases hmt : mapE f t with
      | error e => rw [mapE, hfa, hmt] at hys; exact absurd hys (by simp)
      | ok bs =>
        rw [mapE, hfa, hmt] at hys
        simp only [Except.ok.injEq] at hys
        subst hys
        rcases List.mem_cons.mp hx with rfl | hxt
        · rw [hfa] at hy
          simp only [Except.ok.injEq] at hy
          exact hy ▸ List.Mem.head _
        · exact List.Mem.tail _ (ih bs hmt x hxt y hy)

/-- Helper: slot0 can only raise the IndexError. -/
theorem slot0_error (o : BObject) (e : ExportError)
    (h : slot0 o = Except.error e) : e = ExportError.indexError := by
  rcases hsl : o.material_slots with _ | ⟨m, t⟩ <;> rw [slot0, hsl] at h
  · simp only [Except.error.injEq] at h; exact h.symm
  · exact absurd h (by simp)

/-- Helper: create_material can only raise the AssertionError (the single
qualifying slot always has its diffuse flag set, so create_texture cannot
raise there). -/
theorem create_material_error (m : BMaterial) (e : ExportError)
    (h : create_material m = Except.error e) : e = ExportError.assertionError := by
  rcases hd : diffuseSlots m with _ | ⟨d, _ | ⟨d2, t⟩⟩
  · rw [create_material, hd] at h
    simp only [Except.error.injEq] at h
    exact h.symm
  · have hflag := diffuse_flag_of_mem_diffuseSlots m d (by rw [hd]; exact List.Mem.head _)
    have hct := create_texture_of_diffuse d hflag
    simp [create_material, hd, hct] at h
  · rw [create_material, hd] at h
    simp only [Except.error.injEq] at h
    exact h.symm

/-- Helper: a material with a diffuse-slot count other than one is rejected
with the AssertionError. -/
theorem create_material_fails (m : BMaterial)
    (h : (diffuseSlots m).length ≠ 1) :
    create_material m = Except.error ExportError.assertionError := by
  rcases hd : diffuseSlots m with _ | ⟨d, _ | ⟨d2, t⟩⟩
  · rw [create_material, hd]
  · rw [hd] at h; simp at h
  · rw [create_material, hd]

/-- C5: a source material with zero or with two-or-more diffuse-flagged
texture slots makes the material builder fail with the assertion error; and
in write_file this happens during material building, before the output file
is opened: on any scene whose mesh objects all have a first material slot,
where some used material has a diffuse-slot count other than one, the whole
export returns the assertion error (the writer, constructed only on the
success path, is never reached). -/
theorem c5_diffuse_validation :
    (∀ (m : BMaterial), (diffuseSlots m).length ≠ 1 →
      create_material m = Except.error ExportError.assertionError) ∧
    (∀ (v2e : Vec3 → Vec3) (s : Scene),
      (∀ o ∈ allMeshObj s, o.material_slots ≠ []) →
      (∃ o ∈ allMeshObj s, ∃ bm, slot0 o = Except.ok bm ∧
        (diffuseSlots bm).length ≠ 1) →
      write_file v2e s = Except.error ExportError.assertionError) := by
  refine ⟨create_material_fails, ?_⟩
  intro v2e s hne hex
  have hok : ∀ o ∈ allMeshObj s, ∃ y, slot0 o = Except.ok y := by
    intro o ho
    rcases hsl : o.material_slots with _ | ⟨m, t⟩
    · exact absurd hsl (hne o ho)
    · exact ⟨m, by rw [slot0, hsl]⟩
  obtain ⟨ys, hys⟩ := mapE_ok_of_forall slot0 (allMeshObj s) hok
  obtain ⟨o, ho, bm, hbm, hbad⟩ := hex
  have hmem : bm ∈ ys := mapE_ok_mem slot0 (allMeshObj s) ys hys o ho bm hbm
  have herr2 : mapE create_material ys = Except.error ExportError.assertionError := by
    apply mapE_error_of_mem create_material ExportError.assertionError
      create_material_error
    exact ⟨bm, hmem, ExportError.assertionError, create_material_fails bm hbad⟩
  simp only [write_file, hys, herr2]

/-- C5 witness: the zero-diffuse material is rejected, and the export on
the scene using it returns the assertion error. -/
theorem c5_diffuse_validation_witness :
    create_material bmatNoDiffuse = Except.error ExportError.assertionError ∧
    write_file (fun v => v) badScene = Except.error ExportError.assertionError := by
  refine ⟨c5_diffuse_validation.1 bmatNoDiffuse (by decide), ?_⟩
  refine c5_diffuse_validation.2 (fun v => v) badScene ?_ ?_
  · intro o ho
    have ho2 : o ∈ [badObj] := ho
    rcases List.mem_singleton.mp ho2 with rfl
    decide
  · exact ⟨badObj, List.Mem.head _, bmatNoDiffuse, rfl, by decide⟩

/-- C10: a scene containing a mesh object with an empty material-slot list
makes write_file fail with the unguarded IndexError raised while reading the
first material slot, before anything later (material building, render
nodes, the writer) runs. -/
theorem c10_empty_slot_index_error (v2e : Vec3 → Vec3) (s : Scene)
    (h : ∃ o ∈ allMeshObj s, o.material_slots = []) :
    write_file v2e s = Except.error ExportError.indexError := by
  have herr : mapE slot0 (allMeshObj s) = Except.error ExportError.indexError := by
    apply mapE_error_of_mem slot0 ExportError.indexError slot0_error
    obtain ⟨o, ho, hemp⟩ := h
    exact ⟨o, ho, ExportError.indexError, by rw [slot0, hemp]⟩
  simp only [write_file, herr]

/-- C10 witness: the slotless-object scene fails with the IndexError. -/
theorem c10_empty_slot_index_error_witness :
    write_file (fun v => v) emptySlotScene = Except.error ExportError.indexError :=
  c10_empty_slot_index_error (fun v => v) emptySlotScene
    ⟨emptySlotObj, List.Mem.head _, rfl⟩

/-- C1: the claim says the material table contains exactly one entry for a
source material shared by two objects, with dense zero-based indices.  The
code appends one table entry per mesh object (the name-keyed map only
deduplicates creation), and `mat.index = i` mutates the single shared
Material object, so on a two-object scene sharing one material the
assembled table has two entries, both aliases carrying index 1 (the
last-assigned one, so entry 0's stored index disagrees with its position);
both render nodes do resolve to the same material index 1. -/
theorem c1_material_table_duplicated :
    (write_file (fun v => v) sharedMatScene).map (fun out =>
      (out.materials.length, out.materials.map Material.index,
       out.renderNodes.map ResolvedRN.materialIdx)) =
      Except.ok (2, [1, 1], [1, 1]) := by
  rfl

end IoEDM
